import Mathlib

/-
Shallow embedding of the blackjack Monte-Carlo EV solver of
src/LATEST20250108.py, together with the soft-17 dealer variant of
src/11-23-BJSOLV-RNG.py (namespace BJ1123 below).

Randomness: the Python code draws through the global `random` module.  We
model the random source as an injected stream of naturals (`List Nat`),
consumed head first; each call of `random.choice(pool)` consumes one stream
element r and selects index `r % pool.length` of the pool (index 0 when the
stream is exhausted).  Every stateful function returns its payload together
with the remaining stream, mirroring the advance of the global RNG state.

Loops that draw from a finite pool are written with an explicit fuel
argument so that they are structurally recursive (hence kernel-evaluable);
the wrappers pass the pool size as fuel, which is exact: each iteration of
the Python `while` removes one card from the local pool, so the loop can
iterate at most `pool.length` times, and once the pool is empty the loop
condition is false and the remaining fuel is irrelevant.

Python floats are modelled as rationals (ℚ).
-/

inductive Rank where
  | two | three | four | five | six | seven | eight | nine
  | ten | jack | queen | king | ace
deriving DecidableEq

def ALL_RANKS : List Rank :=
  [.two, .three, .four, .five, .six, .seven, .eight, .nine,
   .ten, .jack, .queen, .king, .ace]

def RANK_TO_VALUE : Rank → Nat
  | .two => 2 | .three => 3 | .four => 4 | .five => 5 | .six => 6
  | .seven => 7 | .eight => 8 | .nine => 9
  | .ten => 10 | .jack => 10 | .queen => 10 | .king => 10 | .ace => 11

def COUNTING_SYSTEM : Rank → ℚ
  | .two => 1 | .seven => 1 | .three => 1 | .six => 2 | .four => 2 | .five => 2
  | .eight => 0 | .nine => -1
  | .ten => -2 | .jack => -2 | .queen => -2 | .king => -2 | .ace => 0

def BLACKJACK : Nat := 21
def DEALER_STAND : Nat := 17
def NUM_DECKS : Nat := 6
def SIMULATIONS : Nat := 10000
def RTP : ℚ := 995 / 1000

/-- `initialize_shoe_counts`: every rank starts with `4 * num_decks` copies. -/
def initialize_shoe_counts (num_decks : Nat) : Rank → Nat :=
  fun _ => 4 * num_decks

/-- `remove_card_from_shoe`: decrement the rank's count and update the running
count; `None` models the `ValueError` raised when the count is already 0
(in which case nothing is mutated). -/
def remove_card_from_shoe (shoe_counts : Rank → Nat) (running_count : ℚ)
    (rank : Rank) : Option ((Rank → Nat) × ℚ) :=
  if shoe_counts rank > 0 then
    some (Function.update shoe_counts rank (shoe_counts rank - 1),
          running_count + COUNTING_SYSTEM rank)
  else
    none

/-- `remove_card_from_shoe` applied k times to the same rank (failure aborts). -/
def remove_card_k : Nat → ((Rank → Nat) × ℚ) → Rank → Option ((Rank → Nat) × ℚ)
  | 0, st, _ => some st
  | k + 1, st, rank =>
      match remove_card_from_shoe st.1 st.2 rank with
      | none => none
      | some st2 => remove_card_k k st2 rank

/-- `build_shoe_list`: flat list of card values, each rank repeated by its
remaining count, in the fixed `ALL_RANKS` order. -/
def build_shoe_list (shoe_counts : Rank → Nat) : List Nat :=
  ALL_RANKS.foldl
    (fun cards_list rank =>
      cards_list ++ List.replicate (shoe_counts rank) (RANK_TO_VALUE rank)) []

/-- The `while total > BLACKJACK and aces > 0: total -= 10; aces -= 1` loop
shared by `hand_value` and `is_soft_hand`; returns (total, aces) at exit. -/
def adjust_total : Nat → Nat → Nat × Nat
  | total, 0 => (total, 0)
  | total, aces + 1 =>
      if BLACKJACK < total then adjust_total (total - 10) aces
      else (total, aces + 1)

/-- `hand_value`: best total, aces valued 11 or 1. -/
def hand_value (cards : List Nat) : Nat :=
  (adjust_total cards.sum (cards.count 11)).1

/-- `is_soft_hand`: after adjusting, are any aces still counted as 11. -/
def is_soft_hand (cards : List Nat) : Bool :=
  (adjust_total cards.sum (cards.count 11)).2 != 0

/-- One `random.choice` index draw: consume one stream element. -/
def choiceIdx (n : Nat) : List Nat → Nat × List Nat
  | [] => (0, [])
  | r :: rs => (r % n, rs)

/-- `random.choice(pool)`: the selected value and the advanced stream. -/
def choice (pool : List Nat) (rng : List Nat) : Nat × List Nat :=
  let p := choiceIdx pool.length rng
  (pool.getD p.1 0, p.2)

/-- The dealer draw loop of `simulate_dealer_hand_once`:
`while hand_value < DEALER_STAND and local_shoe: draw, remove, append`.
Returns ((final dealer cards, final local shoe), remaining stream). -/
def dealer_loop : Nat → List Nat → List Nat → List Nat →
    (List Nat × List Nat) × List Nat
  | 0, dealer_cards, local_shoe, rng => ((dealer_cards, local_shoe), rng)
  | fuel + 1, dealer_cards, local_shoe, rng =>
      if hand_value dealer_cards < DEALER_STAND ∧ local_shoe ≠ [] then
        dealer_loop fuel (dealer_cards ++ [(choice local_shoe rng).1])
          (local_shoe.erase (choice local_shoe rng).1)
          (choice local_shoe rng).2
      else
        ((dealer_cards, local_shoe), rng)

/-- `simulate_dealer_hand_once`: remove the upcard from a local copy of the
shoe list once, play the dealer out, return the final total. -/
def simulate_dealer_hand_once (dealer_card_val : Nat) (shoe_list : List Nat)
    (rng : List Nat) : Nat × List Nat :=
  let local_shoe := shoe_list.erase dealer_card_val
  let r := dealer_loop local_shoe.length [dealer_card_val] local_shoe rng
  (hand_value r.1.1, r.2)

/-- The loop of `simulate_dealer_hands`: n independent dealer playouts from
the same shoe list, collecting the final totals in order. -/
def simulate_dealer_hands_aux (dealer_card_val : Nat) (shoe_list : List Nat) :
    Nat → List Nat → List Nat × List Nat
  | 0, rng => ([], rng)
  | n + 1, rng =>
      let t := simulate_dealer_hand_once dealer_card_val shoe_list rng
      let rest := simulate_dealer_hands_aux dealer_card_val shoe_list n t.2
      (t.1 :: rest.1, rest.2)

/-- `simulate_dealer_hands`. -/
def simulate_dealer_hands (dealer_card_val : Nat) (shoe_counts : Rank → Nat)
    (num_simulations : Nat) (rng : List Nat) : List Nat × List Nat :=
  simulate_dealer_hands_aux dealer_card_val (build_shoe_list shoe_counts)
    num_simulations rng

/-- The draw loop of the inner `play_out_hand` helper of `monte_carlo_ev`:
hit while total < 17, stop on bust or empty deck. -/
def play_out_loop : Nat → List Nat → List Nat → List Nat →
    (List Nat × List Nat) × List Nat
  | 0, p_cards, local_deck, rng => ((p_cards, local_deck), rng)
  | fuel + 1, p_cards, local_deck, rng =>
      if hand_value p_cards < 17 ∧ local_deck ≠ [] then
        if hand_value (p_cards ++ [(choice local_deck rng).1]) > BLACKJACK then
          ((p_cards ++ [(choice local_deck rng).1],
            local_deck.erase (choice local_deck rng).1),
           (choice local_deck rng).2)
        else
          play_out_loop fuel (p_cards ++ [(choice local_deck rng).1])
            (local_deck.erase (choice local_deck rng).1)
            (choice local_deck rng).2
      else
        ((p_cards, local_deck), rng)

/-- `play_out_hand` (the helper defined inside `monte_carlo_ev`). -/
def play_out_hand (p_cards : List Nat) (local_deck : List Nat)
    (rng : List Nat) : (List Nat × List Nat) × List Nat :=
  play_out_loop local_deck.length p_cards local_deck rng

/-- `compare_final_totals`: +1 player win, -1 dealer win, 0 push. -/
def compare_final_totals (player_total dealer_total : Nat) : Int :=
  if player_total > BLACKJACK then -1
  else if dealer_total > BLACKJACK then 1
  else if player_total > dealer_total then 1
  else if player_total < dealer_total then -1
  else 0

/-- One iteration of the loop in `process_results_for_stand_like`. -/
def stand_like_step (player_t : Nat) (soft : Bool) (acc : Int)
    (d_total : Nat) : Int :=
  if d_total > BLACKJACK then acc + 1
  else if soft then
    let soft_total := if player_t ≤ 11 then player_t + 10 else player_t
    if max soft_total player_t > d_total then acc + 1
    else if max soft_total player_t < d_total then acc - 1
    else acc
  else
    if player_t > d_total then acc + 1
    else if player_t < d_total then acc - 1
    else acc

/-- `process_results_for_stand_like`. -/
def process_results_for_stand_like (player_t : Nat)
    (dealer_totals_list : List Nat) (soft : Bool) : Int :=
  if player_t > BLACKJACK then -1 * (dealer_totals_list.length : Int)
  else dealer_totals_list.foldl (stand_like_step player_t soft) 0

/-- Removing the player's known cards from the trial's local shoe list
(`for val in player_cards: if val in local_shoe: local_shoe.remove(val)`). -/
def remove_values (local_shoe : List Nat) (vals : List Nat) : List Nat :=
  vals.foldl (fun s v => s.erase v) local_shoe

/-- One trial of the Hit branch of `monte_carlo_ev`: signed payoff and the
advanced stream. -/
def hit_trial (player_cards : List Nat) (dealer_card_val : Nat)
    (shoe_counts : Rank → Nat) (rng : List Nat) : Int × List Nat :=
  let local_shoe := build_shoe_list shoe_counts
  let local_shoe := remove_values local_shoe player_cards
  let local_shoe := local_shoe.erase dealer_card_val
  let q := play_out_hand player_cards local_shoe rng
  let p_total := hand_value q.1.1
  let d := simulate_dealer_hand_once dealer_card_val q.1.2 q.2
  let payoff : Int :=
    if p_total > BLACKJACK then -1
    else if d.1 > BLACKJACK ∨ p_total > d.1 then 1
    else if p_total < d.1 then -1
    else 0
  (payoff, d.2)

/-- One trial of the Double Down branch of `monte_carlo_ev`. -/
def double_down_trial (player_cards : List Nat) (dealer_card_val : Nat)
    (shoe_counts : Rank → Nat) (rng : List Nat) : Int × List Nat :=
  let local_shoe := build_shoe_list shoe_counts
  let local_shoe := remove_values local_shoe player_cards
  let local_shoe := local_shoe.erase dealer_card_val
  let c := if local_shoe ≠ [] then choice local_shoe rng else (0, rng)
  let local_shoe := local_shoe.erase c.1
  let tmp_cards := player_cards ++ [c.1]
  let p_total := hand_value tmp_cards
  let d := simulate_dealer_hand_once dealer_card_val local_shoe c.2
  let payoff : Int :=
    if p_total > BLACKJACK then -2
    else if d.1 > BLACKJACK ∨ p_total > d.1 then 2
    else if p_total < d.1 then -2
    else 0
  (payoff, d.2)

/-- One trial of the Split branch of `monte_carlo_ev`: the two sub-hand
payoffs are summed; when fewer than two copies of the split card remain the
trial is skipped (`continue`), contributing 0 and consuming no randomness.
Each sub-hand's dealer playout runs on `local_shoe.copy()`, so its removals
are invisible to the shared pool while the stream still advances. -/
def split_trial (split_card_val : Nat) (dealer_card_val : Nat)
    (shoe_counts : Rank → Nat) (rng : List Nat) : Int × List Nat :=
  let local_shoe := build_shoe_list shoe_counts
  if local_shoe.count split_card_val ≥ 2 then
    let local_shoe := (local_shoe.erase split_card_val).erase split_card_val
    let local_shoe := local_shoe.erase dealer_card_val
    let c1 := choice local_shoe rng
    let local_shoe := local_shoe.erase c1.1
    let q1 := play_out_hand [split_card_val, c1.1] local_shoe c1.2
    let p_total_1 := hand_value q1.1.1
    let d1 := simulate_dealer_hand_once dealer_card_val q1.1.2 q1.2
    let result_1 := compare_final_totals p_total_1 d1.1
    let c2 := choice q1.1.2 d1.2
    let local_shoe_2 := q1.1.2.erase c2.1
    let q2 := play_out_hand [split_card_val, c2.1] local_shoe_2 c2.2
    let p_total_2 := hand_value q2.1.1
    let d2 := simulate_dealer_hand_once dealer_card_val q2.1.2 q2.2
    let result_2 := compare_final_totals p_total_2 d2.1
    (result_1 + result_2, d2.2)
  else
    (0, rng)

/-- The common sub-hand segment of the Split branch (draw one card, play
the sub-hand out, run this sub-hand's dealer playout on a copy of the pool,
score it): returns ((sub-hand result, pool after the sub-hand's own draws),
advanced stream).  `split_trial` is definitionally two of these in
sequence. -/
def split_subhand (split_card_val dealer_card_val : Nat) (pool : List Nat)
    (rng : List Nat) : (Int × List Nat) × List Nat :=
  let c := choice pool rng
  let q := play_out_hand [split_card_val, c.1] (pool.erase c.1) c.2
  let d := simulate_dealer_hand_once dealer_card_val q.1.2 q.2
  ((compare_final_totals (hand_value q.1.1) d.1, q.1.2), d.2)

/-- `for _ in range(n): ev_chunk += trial()`: sum of n consecutive payoffs. -/
def run_trials (trial : List Nat → Int × List Nat) :
    Nat → List Nat → Int × List Nat
  | 0, rng => (0, rng)
  | n + 1, rng =>
      let p := trial rng
      let rest := run_trials trial n p.2
      (p.1 + rest.1, rest.2)

/-- The `for i in range(10)` chunk loop shared by the Stand / Hit /
Double Down branches: accumulate the chunk payoff into `ev` and append
`ev / ((i + 1) * chunk_size)` to the convergence trace. -/
def mc_chunk_loop (chunk_fn : List Nat → Int × List Nat) (chunk_size : Nat) :
    List Nat → Int → List ℚ → List Nat → (Int × List ℚ) × List Nat
  | [], ev, checkpoint_means, rng => ((ev, checkpoint_means), rng)
  | i :: rest, ev, checkpoint_means, rng =>
      let p := chunk_fn rng
      mc_chunk_loop chunk_fn chunk_size rest (ev + p.1)
        (checkpoint_means ++
          [((ev + p.1 : Int) : ℚ) / (((i + 1) * chunk_size : Nat) : ℚ)])
        p.2

/-- One Stand chunk: `chunk_size` dealer playouts compared against the
standing player's total. -/
def stand_chunk (player_total : Nat) (soft_player : Bool)
    (dealer_card_val : Nat) (shoe_counts : Rank → Nat) (chunk_size : Nat)
    (rng : List Nat) : Int × List Nat :=
  let p := simulate_dealer_hands dealer_card_val shoe_counts chunk_size rng
  (process_results_for_stand_like player_total p.1 soft_player, p.2)

/-- `monte_carlo_ev`: final EV (scaled by RTP) and the convergence trace
(`checkpoint_means`), plus the advanced stream.  Faithful to the source:
the Split branch pre-divides its accumulator by `10 * chunk_size` and the
shared tail then divides by `simulations` again. -/
def monte_carlo_ev (player_cards : List Nat) (dealer_card_val : Nat)
    (shoe_counts : Rank → Nat) (action : String) (simulations : Nat)
    (rng : List Nat) : (ℚ × List ℚ) × List Nat :=
  let player_total := hand_value player_cards
  let soft_player := is_soft_hand player_cards
  let chunk_size := simulations / 10
  let r : (ℚ × List ℚ) × List Nat :=
    if action = "Stand" then
      let p := mc_chunk_loop
        (stand_chunk player_total soft_player dealer_card_val shoe_counts
          chunk_size)
        chunk_size (List.range 10) 0 [] rng
      (((p.1.1 : ℚ), p.1.2), p.2)
    else if action = "Hit" then
      let p := mc_chunk_loop
        (fun g => run_trials (hit_trial player_cards dealer_card_val
          shoe_counts) chunk_size g)
        chunk_size (List.range 10) 0 [] rng
      (((p.1.1 : ℚ), p.1.2), p.2)
    else if action = "Double Down" then
      let p := mc_chunk_loop
        (fun g => run_trials (double_down_trial player_cards dealer_card_val
          shoe_counts) chunk_size g)
        chunk_size (List.range 10) 0 [] rng
      (((p.1.1 : ℚ), p.1.2), p.2)
    else if action = "Split" then
      let split_card_val := player_cards.headD 0
      let p := run_trials
        (fun g => run_trials (split_trial split_card_val dealer_card_val
          shoe_counts) chunk_size g)
        10 rng
      ((((p.1 : Int) : ℚ) / ((10 * chunk_size : Nat) : ℚ), []), p.2)
    else
      ((0, []), rng)
  let final_ev := (r.1.1 / (simulations : ℚ)) * RTP
  ((final_ev, r.1.2), r.2)

/-- The legal-action list built by `get_player_action`, in the order the
source appends: Stand, Hit, then Double Down and Split when eligible. -/
def legal_actions (player_cards : List Nat) (first_turn split_hand : Bool) :
    List String :=
  ["Stand", "Hit"]
    ++ (if first_turn ∧ player_cards.length = 2 ∧ ¬split_hand
        then ["Double Down"] else [])
    ++ (if first_turn ∧ player_cards.length = 2 ∧
           player_cards.getD 0 0 = player_cards.getD 1 0
        then ["Split"] else [])

/-- The `evs` mapping of `get_player_action`, in insertion order: one
`monte_carlo_ev` call per action, threading the stream. -/
def action_evs (player_cards : List Nat) (dealer_card_val : Nat)
    (shoe_counts : Rank → Nat) :
    List String → List Nat → List (String × ℚ) × List Nat
  | [], rng => ([], rng)
  | a :: rest, rng =>
      let p := monte_carlo_ev player_cards dealer_card_val shoe_counts a
        SIMULATIONS rng
      let q := action_evs player_cards dealer_card_val shoe_counts rest p.2
      ((a, p.1.1) :: q.1, q.2)

/-- Stable descending insertion used to model Python's stable
`sorted(evs.items(), key=value, reverse=True)`. -/
def insort_desc (x : String × ℚ) : List (String × ℚ) → List (String × ℚ)
  | [] => [x]
  | y :: ys => if x.2 ≥ y.2 then x :: y :: ys else y :: insort_desc x ys

/-- Stable descending sort by EV (insertion sort; extensionally equal to any
stable sort, hence to Python's `sorted(..., reverse=True)`). -/
def sort_desc : List (String × ℚ) → List (String × ℚ)
  | [] => []
  | x :: xs => insort_desc x (sort_desc xs)

/-- `get_player_action`: (best action, second-best action or none, EV gap,
advanced stream).  The source computes exactly these from the sorted list
(and returns the best action; second best and the gap are shown). -/
def get_player_action (player_cards : List Nat) (dealer_card_val : Nat)
    (shoe_counts : Rank → Nat) (first_turn split_hand : Bool)
    (rng : List Nat) : String × Option String × ℚ × List Nat :=
  let actions := legal_actions player_cards first_turn split_hand
  let p := action_evs player_cards dealer_card_val shoe_counts actions rng
  let sorted_actions := sort_desc p.1
  let best_action := (sorted_actions.headD ("", 0)).1
  let second_best_action :=
    if sorted_actions.length > 1 then some ((sorted_actions.getD 1 ("", 0)).1)
    else none
  let ev_diff :=
    if sorted_actions.length > 1 then
      (sorted_actions.headD ("", 0)).2 - (sorted_actions.getD 1 ("", 0)).2
    else 0
  (best_action, second_best_action, ev_diff, p.2)

/-- The hard (all aces as 1) reading of a hand's raw sum: each ace was
entered as 11, so valuing it 1 subtracts 10. -/
def lowValue (cards : List Nat) : Nat :=
  cards.sum - 10 * cards.count 11

/-- A stream-consuming computation is deterministic in the injected stream:
it consumes a prefix of the stream (of some length k) and its payload
depends only on that consumed prefix. -/
def StreamDet {α : Type} (f : List Nat → α × List Nat) : Prop :=
  ∀ rng, ∃ k, (f rng).2 = rng.drop k ∧
    ∀ rng2, rng2.take k = rng.take k →
      (f rng2).1 = (f rng).1 ∧ (f rng2).2 = rng2.drop k

namespace BJ1123

/-- The single-deck draw pool of src/11-23-BJSOLV-RNG.py. -/
def DECK : List Nat := [2, 3, 4, 5, 6, 7, 8, 9, 10, 10, 10, 10, 11]

/-- The dealer loop of `simulate_dealer_hand`:
`while value < 17 or (value == 17 and 11 in dealer_hand):
   dealer_hand.append(random.choice(DECK))`.
Drawing is from the fixed DECK constant (with replacement). -/
def dealer_play_loop : Nat → List Nat → List Nat → List Nat × List Nat
  | 0, dealer_hand, rng => (dealer_hand, rng)
  | fuel + 1, dealer_hand, rng =>
      if hand_value dealer_hand < DEALER_STAND ∨
         (hand_value dealer_hand = DEALER_STAND ∧ 11 ∈ dealer_hand) then
        dealer_play_loop fuel (dealer_hand ++ [(choice DECK rng).1])
          (choice DECK rng).2
      else
        (dealer_hand, rng)

/-- The dealer playout of src/11-23-BJSOLV-RNG.py, returning the final hand.
Fuel 18 is exact: every drawn card raises `lowValue` by at least 1,
`lowValue ≤ hand_value`, and the loop only continues while
`hand_value ≤ 17`, so at most 18 draws ever happen and once
`lowValue ≥ 18` the remaining fuel is irrelevant (see
`dealer_play_loop_fuel_irrelevant`). -/
def dealer_play (dealer_hand : List Nat) (rng : List Nat) :
    List Nat × List Nat :=
  dealer_play_loop 18 dealer_hand rng

/-- `simulate_dealer_hand`: the final dealer total. -/
def simulate_dealer_hand (dealer_hand : List Nat) (rng : List Nat) :
    Nat × List Nat :=
  let p := dealer_play dealer_hand rng
  (hand_value p.1, p.2)

/-- Modelled from the claim's words (C4), for comparison with the source:
a dealer that draws exactly while `total < 17` or
(`total == 17` and `is_soft(hand)`), each draw taken from the local deck
snapshot without replacement. -/
def dealer_play_claim_loop : Nat → List Nat → List Nat → List Nat →
    List Nat × List Nat
  | 0, dealer_hand, _, rng => (dealer_hand, rng)
  | fuel + 1, dealer_hand, local_deck, rng =>
      if (hand_value dealer_hand < DEALER_STAND ∨
          (hand_value dealer_hand = DEALER_STAND ∧
           is_soft_hand dealer_hand = true)) ∧ local_deck ≠ [] then
        dealer_play_claim_loop fuel
          (dealer_hand ++ [(choice local_deck rng).1])
          (local_deck.erase (choice local_deck rng).1)
          (choice local_deck rng).2
      else
        (dealer_hand, rng)

/-- Modelled from the claim's words (C4): the final total of the
claim-described dealer, drawing without replacement from a snapshot of
DECK. -/
def simulate_dealer_hand_claim (dealer_hand : List Nat) (rng : List Nat) :
    Nat × List Nat :=
  let p := dealer_play_claim_loop DECK.length dealer_hand DECK rng
  (hand_value p.1, p.2)

end BJ1123

/-- A small test shoe used for concrete runs: two fives, two sevens,
three ten-valued cards. -/
def testShoe : Rank → Nat
  | .five => 2 | .seven => 2 | .ten => 3 | _ => 0

/-- The empty shoe. -/
def zeroShoe : Rank → Nat := fun _ => 0

/-! ## Helper lemmas -/

theorem blackjack_def : BLACKJACK = 21 := rfl

theorem dealer_stand_def : DEALER_STAND = 17 := rfl

/-- The ace-adjustment loop performs the minimal number k of 11→1 ace
reductions: it stops as soon as the total is ≤ 21 or no ace is left, and
every total before the stop was > 21. -/
theorem adjust_total_spec (a s : Nat) :
    ∃ k, k ≤ a ∧ adjust_total s a = (s - 10 * k, a - k) ∧
      (∀ j, j < k → 21 < s - 10 * j) ∧
      (s - 10 * k ≤ 21 ∨ k = a) := by
  induction a generalizing s with
  | zero =>
      exact ⟨0, Nat.le_refl 0, rfl, fun j hj => absurd hj (Nat.not_lt_zero j),
        Or.inr rfl⟩
  | succ a ih =>
      by_cases h : 21 < s
      · obtain ⟨k, hk, heq, hall, hstop⟩ := ih (s - 10)
        refine ⟨k + 1, by omega, ?_, ?_, ?_⟩
        · rw [show adjust_total s (a + 1) = adjust_total (s - 10) a by
            simp [adjust_total, blackjack_def, h], heq]
          have h1 : s - 10 - 10 * k = s - 10 * (k + 1) := by omega
          have h2 : a - k = a + 1 - (k + 1) := by omega
          rw [h1, h2]
        · intro j hj
          cases j with
          | zero => simpa using h
          | succ j =>
              have := hall j (by omega)
              omega
        · rcases hstop with h1 | h1
          · left; omega
          · right; omega
      · refine ⟨0, Nat.zero_le _, ?_,
          fun j hj => absurd hj (Nat.not_lt_zero j), Or.inl (by omega)⟩
        simp [adjust_total, blackjack_def, h]

/-! ## C2 and C9: hand valuation -/

/-- C2: for every hand (each ace entered as 11), `hand_value` returns the
largest total achievable by valuing each ace as 1 or 11 (valuing k aces as
1 subtracts 10k from the raw sum) that is ≤ 21, whenever some assignment
stays ≤ 21; otherwise it returns the all-aces-as-1 (hard) sum.  This is what
the iterative reduce-one-ace-by-10-while-over-21 loop computes. -/
theorem hand_value_best_total (cards : List Nat) :
    ((∃ k, k ≤ cards.count 11 ∧ cards.sum - 10 * k ≤ 21) →
       hand_value cards ≤ 21 ∧
       (∃ k, k ≤ cards.count 11 ∧ hand_value cards = cards.sum - 10 * k) ∧
       (∀ j, j ≤ cards.count 11 → cards.sum - 10 * j ≤ 21 →
         cards.sum - 10 * j ≤ hand_value cards)) ∧
    ((∀ j, j ≤ cards.count 11 → 21 < cards.sum - 10 * j) →
       hand_value cards = cards.sum - 10 * cards.count 11) := by
  obtain ⟨k, hk, heq, hall, hstop⟩ :=
    adjust_total_spec (cards.count 11) cards.sum
  have hv : hand_value cards = cards.sum - 10 * k := by
    rw [hand_value, heq]
  constructor
  · rintro ⟨j, hj, hjle⟩
    have hk21 : cards.sum - 10 * k ≤ 21 := by
      rcases hstop with h | h
      · exact h
      · by_cases hjk : j < k
        · exact absurd hjle (by have := hall j hjk; omega)
        · have hjeq : j = k := by omega
          subst hjeq; exact hjle
    refine ⟨by omega, ⟨k, hk, hv⟩, ?_⟩
    intro j' hj' hj'le
    by_cases hj'k : j' < k
    · exact absurd hj'le (by have := hall j' hj'k; omega)
    · have : 10 * k ≤ 10 * j' := by omega
      omega
  · intro hallbig
    rcases hstop with h | h
    · exact absurd h (by have := hallbig k hk; omega)
    · rw [hv, h]

/-- C9: `is_soft_hand` is true iff, after the minimal ace reduction done by
the total computation, at least one ace is still valued 11 — equivalently,
the hand has an ace and valuing all but one of its aces as 1 keeps the
total ≤ 21; and the two-card hand ace + ten-value totals 21 and is
reported soft. -/
theorem is_soft_hand_spec (cards : List Nat) :
    (is_soft_hand cards = true ↔
      1 ≤ cards.count 11 ∧ cards.sum - 10 * (cards.count 11 - 1) ≤ 21) ∧
    (hand_value [11, 10] = 21 ∧ is_soft_hand [11, 10] = true) := by
  obtain ⟨k, hk, heq, hall, hstop⟩ :=
    adjust_total_spec (cards.count 11) cards.sum
  have hs : is_soft_hand cards = true ↔ k < cards.count 11 := by
    rw [is_soft_hand, heq]
    simp only [bne_iff_ne, ne_eq]
    omega
  refine ⟨?_, by decide, by decide⟩
  rw [hs]
  constructor
  · intro hlt
    have h21 : cards.sum - 10 * k ≤ 21 := by
      rcases hstop with h | h
      · exact h
      · omega
    constructor
    · omega
    · have : 10 * k ≤ 10 * (cards.count 11 - 1) := by omega
      omega
  · rintro ⟨h1, hle⟩
    by_contra hnot
    have hke : k = cards.count 11 := by omega
    have := hall (cards.count 11 - 1) (by omega)
    omega

/-! ## C6: shoe removal -/

theorem remove_card_k_ok (k : Nat) :
    ∀ (shoe : Rank → Nat) (rc : ℚ) (r : Rank), k ≤ shoe r →
      ∃ st, remove_card_k k (shoe, rc) r = some st ∧
        st.1 r = shoe r - k ∧ (∀ q, q ≠ r → st.1 q = shoe q) := by
  induction k with
  | zero =>
      intro shoe rc r _
      exact ⟨(shoe, rc), rfl, by show shoe r = shoe r - 0; omega,
        fun q _ => rfl⟩
  | succ k ih =>
      intro shoe rc r hk
      have hpos : shoe r > 0 := by omega
      have hstep : remove_card_from_shoe shoe rc r =
          some (Function.update shoe r (shoe r - 1),
                rc + COUNTING_SYSTEM r) := by
        rw [remove_card_from_shoe, if_pos hpos]
      obtain ⟨st, hst, hr, hq⟩ :=
        ih (Function.update shoe r (shoe r - 1)) (rc + COUNTING_SYSTEM r) r
          (by rw [Function.update_same]; omega)
      refine ⟨st, ?_, ?_, ?_⟩
      · simp only [remove_card_k, hstep]
        exact hst
      · rw [hr, Function.update_same]
        omega
      · intro q hq'
        rw [hq q hq', Function.update_noteq hq']

/-- C6: removing a rank k times from a shoe with count c ≥ k succeeds and
leaves count c - k with every other rank untouched; removing a rank whose
count is 0 fails (None models CardNotAvailable) and, being a pure failure,
leaves the shoe unchanged.  Counts are naturals, so none is ever
negative. -/
theorem remove_card_from_shoe_spec (shoe : Rank → Nat) (rc : ℚ) (r : Rank)
    (k : Nat) (hk : k ≤ shoe r) :
    (∃ st, remove_card_k k (shoe, rc) r = some st ∧
       st.1 r = shoe r - k ∧ (∀ q, q ≠ r → st.1 q = shoe q)) ∧
    (∀ (sh : Rank → Nat) (c : ℚ), sh r = 0 →
       remove_card_from_shoe sh c r = none) := by
  refine ⟨remove_card_k_ok k shoe rc r hk, ?_⟩
  intro sh c h0
  rw [remove_card_from_shoe, if_neg (by omega)]

/-- Witness for C6 at a concrete shoe: the test shoe holds three
ten-valued cards, so two removals succeed and leave one. -/
theorem remove_card_from_shoe_spec_witness :
    2 ≤ testShoe Rank.ten ∧
    ((∃ st, remove_card_k 2 (testShoe, 0) Rank.ten = some st ∧
        st.1 Rank.ten = testShoe Rank.ten - 2 ∧
        (∀ q, q ≠ Rank.ten → st.1 q = testShoe q)) ∧
     (∀ (sh : Rank → Nat) (c : ℚ), sh Rank.ten = 0 →
        remove_card_from_shoe sh c Rank.ten = none)) :=
  ⟨by decide, remove_card_from_shoe_spec testShoe 0 Rank.ten 2 (by decide)⟩

/-! ## C3: dealer playout termination and stand condition -/

theorem choice_mem (pool rng : List Nat) (h : pool ≠ []) :
    (choice pool rng).1 ∈ pool := by
  have hlen : 0 < pool.length := List.length_pos.mpr h
  cases rng with
  | nil =>
      show pool.getD 0 0 ∈ pool
      rw [List.getD_eq_getElem pool 0 hlen]
      exact List.getElem_mem hlen
  | cons r rs =>
      show pool.getD (r % pool.length) 0 ∈ pool
      have hm : r % pool.length < pool.length := Nat.mod_lt r hlen
      rw [List.getD_eq_getElem pool 0 hm]
      exact List.getElem_mem hm

theorem dealer_loop_spec (fuel : Nat) :
    ∀ (cards shoe rng : List Nat), shoe.length ≤ fuel →
      (dealer_loop fuel cards shoe rng).1.1.length ≤
          cards.length + shoe.length ∧
      (17 ≤ hand_value (dealer_loop fuel cards shoe rng).1.1 ∨
        (dealer_loop fuel cards shoe rng).1.2 = []) := by
  induction fuel with
  | zero =>
      intro cards shoe rng hle
      have hnil : shoe = [] := List.length_eq_zero.mp (by omega)
      subst hnil
      exact ⟨by simp [dealer_loop], Or.inr rfl⟩
  | succ fuel ih =>
      intro cards shoe rng hle
      by_cases h : hand_value cards < DEALER_STAND ∧ shoe ≠ []
      · have hmem := choice_mem shoe rng h.2
        have hlen : (shoe.erase (choice shoe rng).1).length = shoe.length - 1 :=
          List.length_erase_of_mem hmem
        have hpos : 0 < shoe.length := List.length_pos.mpr h.2
        have hstep : dealer_loop (fuel + 1) cards shoe rng =
            dealer_loop fuel (cards ++ [(choice shoe rng).1])
              (shoe.erase (choice shoe rng).1) (choice shoe rng).2 := by
          rw [dealer_loop, if_pos h]
        obtain ⟨h1, h2⟩ := ih (cards ++ [(choice shoe rng).1])
          (shoe.erase (choice shoe rng).1) (choice shoe rng).2 (by omega)
        rw [hstep]
        refine ⟨?_, h2⟩
        simp only [List.length_append, List.length_singleton] at h1
        omega
      · have hstep : dealer_loop (fuel + 1) cards shoe rng =
            ((cards, shoe), rng) := by
          rw [dealer_loop, if_neg h]
        rw [hstep]
        refine ⟨by simp, ?_⟩
        by_cases h1 : hand_value cards < DEALER_STAND
        · right
          show shoe = []
          by_contra h2
          exact h ⟨h1, h2⟩
        · left
          show 17 ≤ hand_value cards
          rw [dealer_stand_def] at h1
          omega

/-- C3: for every dealer upcard and finite shoe snapshot (and any random
stream), the dealer playout of `simulate_dealer_hand_once` terminates with
the hand bounded by one plus the snapshot size (each draw removes a card
from the local pool), and its final total is ≥ 17 (busts > 21 included)
unless the local pool was exhausted first: a total in [0,16] occurs only
with the final local pool empty (exhaustion is a forced stand, not an
error). -/
theorem dealer_playout_terminates_or_exhausts (dealer_card_val : Nat)
    (shoe_list rng : List Nat) :
    (simulate_dealer_hand_once dealer_card_val shoe_list rng).1 =
      hand_value (dealer_loop (shoe_list.erase dealer_card_val).length
        [dealer_card_val] (shoe_list.erase dealer_card_val) rng).1.1 ∧
    (dealer_loop (shoe_list.erase dealer_card_val).length [dealer_card_val]
        (shoe_list.erase dealer_card_val) rng).1.1.length ≤
      1 + shoe_list.length ∧
    (17 ≤ (simulate_dealer_hand_once dealer_card_val shoe_list rng).1 ∨
      (dealer_loop (shoe_list.erase dealer_card_val).length [dealer_card_val]
        (shoe_list.erase dealer_card_val) rng).1.2 = []) ∧
    ((simulate_dealer_hand_once dealer_card_val shoe_list rng).1 ≤ 16 →
      (dealer_loop (shoe_list.erase dealer_card_val).length [dealer_card_val]
        (shoe_list.erase dealer_card_val) rng).1.2 = []) := by
  obtain ⟨h1, h2⟩ := dealer_loop_spec (shoe_list.erase dealer_card_val).length
    [dealer_card_val] (shoe_list.erase dealer_card_val) rng (Nat.le_refl _)
  have herase : (shoe_list.erase dealer_card_val).length ≤ shoe_list.length :=
    (List.erase_sublist dealer_card_val shoe_list).length_le
  have hres : (simulate_dealer_hand_once dealer_card_val shoe_list rng).1 =
      hand_value (dealer_loop (shoe_list.erase dealer_card_val).length
        [dealer_card_val] (shoe_list.erase dealer_card_val) rng).1.1 := rfl
  refine ⟨hres, ?_, ?_, ?_⟩
  · simp only [List.length_singleton] at h1
    omega
  · rw [hres]
    exact h2
  · intro hsmall
    rw [hres] at hsmall
    rcases h2 with h | h
    · omega
    · exact h

/-! ## C4: the soft-17 dealer of src/11-23-BJSOLV-RNG.py -/

theorem sum_ge_11_count (l : List Nat) : 11 * l.count 11 ≤ l.sum := by
  induction l with
  | nil => simp
  | cons x xs ih =>
      simp only [List.count_cons, List.sum_cons]
      split
      · next h =>
          have hx : x = 11 := by simpa using h
          omega
      · omega

theorem lowValue_le_hand_value (cards : List Nat) :
    lowValue cards ≤ hand_value cards := by
  obtain ⟨k, hk, heq, -, -⟩ := adjust_total_spec (cards.count 11) cards.sum
  have hv : hand_value cards = cards.sum - 10 * k := by rw [hand_value, heq]
  rw [lowValue, hv]
  have : 10 * k ≤ 10 * cards.count 11 := by omega
  omega

theorem deck_card_bounds (rng : List Nat) :
    2 ≤ (choice BJ1123.DECK rng).1 ∧ (choice BJ1123.DECK rng).1 ≤ 11 := by
  have hall : ∀ i, i < 13 → 2 ≤ BJ1123.DECK.getD i 0 ∧
      BJ1123.DECK.getD i 0 ≤ 11 := by decide
  cases rng with
  | nil => exact hall 0 (by decide)
  | cons r rs =>
      show 2 ≤ BJ1123.DECK.getD (r % 13) 0 ∧ BJ1123.DECK.getD (r % 13) 0 ≤ 11
      exact hall (r % 13) (Nat.mod_lt r (by decide))

theorem lowValue_append_card (cards : List Nat) (c : Nat) (h2 : 2 ≤ c) :
    lowValue cards + 1 ≤ lowValue (cards ++ [c]) := by
  have hkey := sum_ge_11_count cards
  rw [lowValue, lowValue, List.sum_append, List.count_append]
  by_cases hc : c = 11
  · subst hc
    have hone : List.count 11 [11] = 1 := by decide
    rw [hone]
    simp only [List.sum_cons, List.sum_nil]
    omega
  · have hzero : List.count 11 [c] = 0 := by
      simp only [List.count_cons, List.count_nil]
      simp [hc]
    rw [hzero]
    simp only [List.sum_cons, List.sum_nil]
    omega

theorem dealer_play_loop_stop (f : Nat) (hand rng : List Nat)
    (h : ¬(hand_value hand < DEALER_STAND ∨
          (hand_value hand = DEALER_STAND ∧ 11 ∈ hand))) :
    BJ1123.dealer_play_loop f hand rng = (hand, rng) := by
  cases f with
  | zero => rfl
  | succ f => rw [BJ1123.dealer_play_loop, if_neg h]

theorem dealer_play_loop_fuel_irrelevant (f1 : Nat) :
    ∀ (f2 : Nat) (hand rng : List Nat),
      18 ≤ f1 + lowValue hand → 18 ≤ f2 + lowValue hand →
      BJ1123.dealer_play_loop f1 hand rng =
        BJ1123.dealer_play_loop f2 hand rng := by
  induction f1 with
  | zero =>
      intro f2 hand rng h1 h2
      have hcond : ¬(hand_value hand < DEALER_STAND ∨
          (hand_value hand = DEALER_STAND ∧ 11 ∈ hand)) := by
        rintro (h | ⟨h, -⟩) <;>
          · have := lowValue_le_hand_value hand
            rw [dealer_stand_def] at h
            omega
      rw [dealer_play_loop_stop 0 hand rng hcond,
          dealer_play_loop_stop f2 hand rng hcond]
  | succ f1 ih =>
      intro f2 hand rng h1 h2
      by_cases hcond : hand_value hand < DEALER_STAND ∨
          (hand_value hand = DEALER_STAND ∧ 11 ∈ hand)
      · have hlow : lowValue hand ≤ 17 := by
          have hle := lowValue_le_hand_value hand
          rcases hcond with h | ⟨h, -⟩ <;>
            · rw [dealer_stand_def] at h; omega
        have hinc := lowValue_append_card hand (choice BJ1123.DECK rng).1
          (deck_card_bounds rng).1
        cases f2 with
        | zero => omega
        | succ f2 =>
            rw [BJ1123.dealer_play_loop, if_pos hcond,
                BJ1123.dealer_play_loop, if_pos hcond]
            exact ih f2 (hand ++ [(choice BJ1123.DECK rng).1])
              (choice BJ1123.DECK rng).2 (by omega) (by omega)
      · rw [dealer_play_loop_stop (f1 + 1) hand rng hcond,
            dealer_play_loop_stop f2 hand rng hcond]

theorem choice_DECK_eq (rng : List Nat) :
    choice BJ1123.DECK rng =
      (BJ1123.DECK.getD (rng.headD 0 % 13) 0, rng.tail) := by
  cases rng <;> rfl

/-- C4 (amended): in the soft-17 dealer variant the dealer draws exactly
while `total(hand) < 17` or (`total(hand) == 17` and the hand CONTAINS a
card entered as 11 — `11 in dealer_hand` — which also fires on a hard 17
whose ace was already reduced to 1), and each draw is the fixed DECK
constant's entry at the stream value modulo 13, taken WITH replacement:
DECK is never depleted, so a single-deck pool holding one ace can deal six
aces in a row. -/
theorem bj1123_dealer_draw_condition (hand rng : List Nat) :
    ((hand_value hand < 17 ∨ (hand_value hand = 17 ∧ 11 ∈ hand)) →
      BJ1123.dealer_play hand rng =
        BJ1123.dealer_play (hand ++ [BJ1123.DECK.getD (rng.headD 0 % 13) 0])
          rng.tail) ∧
    (¬(hand_value hand < 17 ∨ (hand_value hand = 17 ∧ 11 ∈ hand)) →
      BJ1123.dealer_play hand rng = (hand, rng)) ∧
    ((BJ1123.dealer_play [2] [12, 12, 12, 12, 12, 12]).1.count 11 = 6 ∧
      BJ1123.DECK.count 11 = 1) := by
  refine ⟨?_, ?_, by decide, by decide⟩
  · intro hcond
    have hcond' : hand_value hand < DEALER_STAND ∨
        (hand_value hand = DEALER_STAND ∧ 11 ∈ hand) := by
      rw [dealer_stand_def]; exact hcond
    have hc2 : 2 ≤ (choice BJ1123.DECK rng).1 := (deck_card_bounds rng).1
    have hinc := lowValue_append_card hand (choice BJ1123.DECK rng).1 hc2
    calc BJ1123.dealer_play hand rng
        = BJ1123.dealer_play_loop 17 (hand ++ [(choice BJ1123.DECK rng).1])
            (choice BJ1123.DECK rng).2 := by
          rw [BJ1123.dealer_play, BJ1123.dealer_play_loop, if_pos hcond']
      _ = BJ1123.dealer_play_loop 18 (hand ++ [(choice BJ1123.DECK rng).1])
            (choice BJ1123.DECK rng).2 :=
          dealer_play_loop_fuel_irrelevant 17 18 _ _ (by omega) (by omega)
      _ = BJ1123.dealer_play (hand ++ [BJ1123.DECK.getD (rng.headD 0 % 13) 0])
            rng.tail := by
          rw [BJ1123.dealer_play, choice_DECK_eq]
  · intro hcond
    have hcond' : ¬(hand_value hand < DEALER_STAND ∨
        (hand_value hand = DEALER_STAND ∧ 11 ∈ hand)) := by
      rw [dealer_stand_def]; exact hcond
    exact dealer_play_loop_stop 18 hand rng hcond'

/-- C4 counterexample: at the concrete start [11] (dealer ace) with stream
[4, 8, 0] the source dealer draws 6 then 10, reaching the hard 17 hand
[11, 6, 10], and draws AGAIN (`11 in dealer_hand` is still true), ending on
19 — while the dealer described by the claim (stand on hard 17, drawing
without replacement from the deck snapshot) stands on 17. -/
theorem bj1123_dealer_claim_counterexample :
    (BJ1123.simulate_dealer_hand [11] [4, 8, 0]).1 = 19 ∧
    (BJ1123.simulate_dealer_hand_claim [11] [4, 8, 0]).1 = 17 ∧
    ¬((BJ1123.simulate_dealer_hand [11] [4, 8, 0]).1 =
      (BJ1123.simulate_dealer_hand_claim [11] [4, 8, 0]).1) := by decide

/-! ## C1: Split EV is divided by the trial count twice -/

/-- C1 (the Split defect, evaluated at a concrete failing input): with the
test shoe [5,5,7,7,10,10,10], player pair [7,7] vs dealer 10, N = 10 trials
and the stream of 2's, all ten Split trials lose both sub-hands, so the sum
of the per-trial payoffs is -20.  The source pre-divides the Split
accumulator by `10 * chunk_size` (= N) and the shared tail divides by
`simulations` (= N) again, so the returned EV is
(-20 / N / N) * RTP = -199/1000, not the (-20 / N) * RTP = -199/100 that
the claim (and the Stand / Hit / Double Down branches) prescribe. -/
theorem monte_carlo_split_double_division :
    (run_trials (fun g => run_trials (split_trial 7 10 testShoe) 1 g) 10
      (List.replicate 60 2)).1 = -20 ∧
    (monte_carlo_ev [7, 7] 10 testShoe "Split" 10
      (List.replicate 60 2)).1.1 = -199 / 1000 ∧
    ((-20 : ℚ) / 10) * RTP = -199 / 100 ∧
    ((-199 : ℚ) / 1000) ≠ -199 / 100 := by
  have h : run_trials (fun g => run_trials (split_trial 7 10 testShoe) 1 g)
      10 (List.replicate 60 2) = (-20, []) := by decide
  refine ⟨by rw [h], ?_, by rw [RTP]; norm_num, by norm_num⟩
  simp only [monte_carlo_ev, List.headD]
  rw [if_neg (by decide : ¬("Split" : String) = "Stand"),
      if_neg (by decide : ¬("Split" : String) = "Hit"),
      if_neg (by decide : ¬("Split" : String) = "Double Down")]
  simp only [if_true, ite_true]
  norm_num [h, RTP]

/-! ## C5: the convergence trace -/

theorem run_trials_add (t : List Nat → Int × List Nat) (m n : Nat)
    (rng : List Nat) :
    run_trials t (m + n) rng =
      ((run_trials t m rng).1 + (run_trials t n (run_trials t m rng).2).1,
       (run_trials t n (run_trials t m rng).2).2) := by
  induction m generalizing rng with
  | zero => simp [run_trials]
  | succ m ih =>
      have hidx : m + 1 + n = (m + n) + 1 := by omega
      rw [hidx]
      simp only [run_trials]
      rw [ih (t rng).2]
      simp [Int.add_assoc]

theorem run_trials_succ_right (t : List Nat → Int × List Nat) (n : Nat)
    (rng : List Nat) :
    run_trials t (n + 1) rng =
      ((run_trials t n rng).1 + (t (run_trials t n rng).2).1,
       (t (run_trials t n rng).2).2) := by
  rw [run_trials_add t n 1]
  simp [run_trials]

theorem run_trials_mul (t : List Nat → Int × List Nat) (c : Nat) (k : Nat)
    (rng : List Nat) :
    run_trials (fun g => run_trials t c g) k rng =
      run_trials t (k * c) rng := by
  induction k generalizing rng with
  | zero => simp [run_trials]
  | succ k ih =>
      have hmul : (k + 1) * c = c + k * c := by ring
      rw [hmul, run_trials_add t c (k * c) rng]
      simp only [run_trials]
      rw [ih (run_trials t c rng).2]

theorem mc_chunk_loop_invariant (chunk_fn : List Nat → Int × List Nat)
    (den : Nat) (rng0 : List Nat) (b : Nat) :
    ∀ (a : Nat) (cps : List ℚ),
      mc_chunk_loop chunk_fn den (List.range' a b)
        (run_trials chunk_fn a rng0).1 cps (run_trials chunk_fn a rng0).2 =
      (((run_trials chunk_fn (a + b) rng0).1,
        cps ++ (List.range' a b).map (fun i =>
          ((run_trials chunk_fn (i + 1) rng0).1 : ℚ) /
            (((i + 1) * den : Nat) : ℚ))),
       (run_trials chunk_fn (a + b) rng0).2) := by
  induction b with
  | zero =>
      intro a cps
      simp [mc_chunk_loop, List.range']
  | succ b ih =>
      intro a cps
      rw [List.range'_succ]
      simp only [mc_chunk_loop]
      rw [show (run_trials chunk_fn a rng0).1 +
            (chunk_fn (run_trials chunk_fn a rng0).2).1 =
          (run_trials chunk_fn (a + 1) rng0).1 from
            (congrArg Prod.fst (run_trials_succ_right chunk_fn a rng0)).symm,
          show (chunk_fn (run_trials chunk_fn a rng0).2).2 =
          (run_trials chunk_fn (a + 1) rng0).2 from
            (congrArg Prod.snd (run_trials_succ_right chunk_fn a rng0)).symm]
      rw [ih (a + 1)
        (cps ++ [((run_trials chunk_fn (a + 1) rng0).1 : ℚ) /
          (((a + 1) * den : Nat) : ℚ)])]
      rw [show a + 1 + b = a + (b + 1) from by omega]
      rw [List.map_cons, List.append_assoc]
      rfl

theorem mc_chunk_loop_range (chunk_fn : List Nat → Int × List Nat)
    (den : Nat) (rng0 : List Nat) :
    mc_chunk_loop chunk_fn den (List.range 10) 0 [] rng0 =
      (((run_trials chunk_fn 10 rng0).1,
        (List.range 10).map (fun i =>
          ((run_trials chunk_fn (i + 1) rng0).1 : ℚ) /
            (((i + 1) * den : Nat) : ℚ))),
       (run_trials chunk_fn 10 rng0).2) := by
  have h0 : run_trials chunk_fn 0 rng0 = (0, rng0) := rfl
  have h := mc_chunk_loop_invariant chunk_fn den rng0 10 0 []
  rw [h0] at h
  rw [List.range_eq_range']
  simpa using h

/-- C5 (amended): for every input and trial count N, the convergence trace
returned by `monte_carlo_ev` for Stand, Hit and Double Down has exactly 10
entries, the i-th (i = 1..10) being the cumulative sum of the payoffs of
the first i chunks divided by i * (N/10) — for Hit and Double Down the
chunk payoff is itself the sum of N/10 per-trial payoffs, so the entry is
the mean of the first i * (N/10) trial payoffs; the Split branch, however,
never records checkpoints: its returned trace is empty, not 10 entries. -/
theorem convergence_trace_spec (pc : List Nat) (v : Nat) (sc : Rank → Nat)
    (N : Nat) (rng : List Nat) :
    ((monte_carlo_ev pc v sc "Stand" N rng).1.2 =
        (List.range 10).map (fun i =>
          ((run_trials (stand_chunk (hand_value pc) (is_soft_hand pc) v sc
              (N / 10)) (i + 1) rng).1 : ℚ) /
            (((i + 1) * (N / 10) : Nat) : ℚ)) ∧
      (monte_carlo_ev pc v sc "Stand" N rng).1.2.length = 10) ∧
    ((monte_carlo_ev pc v sc "Hit" N rng).1.2 =
        (List.range 10).map (fun i =>
          ((run_trials (hit_trial pc v sc) ((i + 1) * (N / 10)) rng).1 : ℚ) /
            (((i + 1) * (N / 10) : Nat) : ℚ)) ∧
      (monte_carlo_ev pc v sc "Hit" N rng).1.2.length = 10) ∧
    ((monte_carlo_ev pc v sc "Double Down" N rng).1.2 =
        (List.range 10).map (fun i =>
          ((run_trials (double_down_trial pc v sc) ((i + 1) * (N / 10))
              rng).1 : ℚ) /
            (((i + 1) * (N / 10) : Nat) : ℚ)) ∧
      (monte_carlo_ev pc v sc "Double Down" N rng).1.2.length = 10) ∧
    (monte_carlo_ev pc v sc "Split" N rng).1.2 = [] := by
  have hStand : (monte_carlo_ev pc v sc "Stand" N rng).1.2 =
      (List.range 10).map (fun i =>
        ((run_trials (stand_chunk (hand_value pc) (is_soft_hand pc) v sc
            (N / 10)) (i + 1) rng).1 : ℚ) /
          (((i + 1) * (N / 10) : Nat) : ℚ)) := by
    simp only [monte_carlo_ev, ite_true, if_true]
    rw [mc_chunk_loop_range]
  have hHit : (monte_carlo_ev pc v sc "Hit" N rng).1.2 =
      (List.range 10).map (fun i =>
        ((run_trials (hit_trial pc v sc) ((i + 1) * (N / 10)) rng).1 : ℚ) /
          (((i + 1) * (N / 10) : Nat) : ℚ)) := by
    simp only [monte_carlo_ev]
    rw [if_neg (by decide : ¬("Hit" : String) = "Stand")]
    simp only [ite_true, if_true]
    rw [mc_chunk_loop_range]
    simp only [run_trials_mul]
  have hDD : (monte_carlo_ev pc v sc "Double Down" N rng).1.2 =
      (List.range 10).map (fun i =>
        ((run_trials (double_down_trial pc v sc) ((i + 1) * (N / 10))
            rng).1 : ℚ) /
          (((i + 1) * (N / 10) : Nat) : ℚ)) := by
    simp only [monte_carlo_ev]
    rw [if_neg (by decide : ¬("Double Down" : String) = "Stand"),
        if_neg (by decide : ¬("Double Down" : String) = "Hit")]
    simp only [ite_true, if_true]
    rw [mc_chunk_loop_range]
    simp only [run_trials_mul]
  have hSplit : (monte_carlo_ev pc v sc "Split" N rng).1.2 = [] := by
    simp only [monte_carlo_ev, List.headD]
    rw [if_neg (by decide : ¬("Split" : String) = "Stand"),
        if_neg (by decide : ¬("Split" : String) = "Hit"),
        if_neg (by decide : ¬("Split" : String) = "Double Down")]
    simp only [ite_true, if_true]
  exact ⟨⟨hStand, by rw [hStand]; simp⟩, ⟨hHit, by rw [hHit]; simp⟩,
    ⟨hDD, by rw [hDD]; simp⟩, hSplit⟩

/-- C5 counterexample: at the concrete input (pair of sevens vs dealer ten
on the test shoe, N = 10), the Split branch returns an empty convergence
trace — 0 entries, not the 10 the claim asserts for every action. -/
theorem split_trace_empty_counterexample :
    (monte_carlo_ev [7, 7] 10 testShoe "Split" 10
      (List.replicate 60 2)).1.2 = [] ∧
    (monte_carlo_ev [7, 7] 10 testShoe "Split" 10
      (List.replicate 60 2)).1.2.length ≠ 10 := by
  have h : (monte_carlo_ev [7, 7] 10 testShoe "Split" 10
      (List.replicate 60 2)).1.2 = [] := by
    simp only [monte_carlo_ev, List.headD]
    rw [if_neg (by decide : ¬("Split" : String) = "Stand"),
        if_neg (by decide : ¬("Split" : String) = "Hit"),
        if_neg (by decide : ¬("Split" : String) = "Double Down")]
    simp only [ite_true, if_true]
  exact ⟨h, by rw [h]; decide⟩

/-! ## C7: the action selector -/

theorem insort_desc_perm (x : String × ℚ) (l : List (String × ℚ)) :
    List.Perm (insort_desc x l) (x :: l) := by
  induction l with
  | nil => exact List.Perm.refl _
  | cons y ys ih =>
      rw [insort_desc]
      by_cases h : x.2 ≥ y.2
      · rw [if_pos h]
      · rw [if_neg h]
        exact (ih.cons y).trans (List.Perm.swap x y ys)

theorem sort_desc_perm (l : List (String × ℚ)) :
    List.Perm (sort_desc l) l := by
  induction l with
  | nil => exact List.Perm.refl _
  | cons x xs ih =>
      rw [sort_desc]
      exact (insort_desc_perm x (sort_desc xs)).trans (ih.cons x)

theorem insort_desc_sorted (x : String × ℚ) (l : List (String × ℚ))
    (hl : l.Pairwise (fun p q => q.2 ≤ p.2)) :
    (insort_desc x l).Pairwise (fun p q => q.2 ≤ p.2) := by
  induction l with
  | nil => simp [insort_desc]
  | cons y ys ih =>
      rw [insort_desc]
      rw [List.pairwise_cons] at hl
      by_cases h : x.2 ≥ y.2
      · rw [if_pos h]
        refine List.pairwise_cons.mpr ⟨?_, List.pairwise_cons.mpr hl⟩
        intro z hz
        rcases List.mem_cons.mp hz with hz | hz
        · subst hz; exact h
        · exact le_trans (hl.1 z hz) h
      · rw [if_neg h]
        refine List.pairwise_cons.mpr ⟨?_, ih hl.2⟩
        intro z hz
        have : z ∈ x :: ys := (insort_desc_perm x ys).mem_iff.mp hz
        rcases List.mem_cons.mp this with hz' | hz'
        · subst hz'; exact le_of_not_le h
        · exact hl.1 z hz'

theorem sort_desc_sorted (l : List (String × ℚ)) :
    (sort_desc l).Pairwise (fun p q => q.2 ≤ p.2) := by
  induction l with
  | nil => simp [sort_desc]
  | cons x xs ih => exact insort_desc_sorted x (sort_desc xs) ih

theorem sort_desc_head_first_max (l : List (String × ℚ)) :
    ∀ (x : String × ℚ) (s : List (String × ℚ)), sort_desc l = x :: s →
      ∃ l1 l2, l = l1 ++ x :: l2 ∧ ∀ q ∈ l1, q.2 < x.2 := by
  induction l with
  | nil => intro x s h; simp [sort_desc] at h
  | cons y ys ih =>
      intro x s h
      rw [sort_desc] at h
      cases hys : sort_desc ys with
      | nil =>
          have hnil : ys = [] :=
            List.Perm.eq_nil (hys ▸ sort_desc_perm ys).symm
          rw [hys] at h
          rw [insort_desc] at h
          obtain ⟨hx, hs⟩ := List.cons.inj h
          subst hx
          exact ⟨[], ys, rfl, by simp⟩
      | cons m t =>
          rw [hys, insort_desc] at h
          by_cases hc : y.2 ≥ m.2
          · rw [if_pos hc] at h
            obtain ⟨hx, hs⟩ := List.cons.inj h
            subst hx
            exact ⟨[], ys, rfl, by simp⟩
          · rw [if_neg hc] at h
            obtain ⟨hx, hs⟩ := List.cons.inj h
            obtain ⟨l1, l2, hsplit, hlt⟩ := ih m t hys
            subst hx
            refine ⟨y :: l1, l2, by rw [hsplit]; rfl, ?_⟩
            intro q hq
            rcases List.mem_cons.mp hq with hq | hq
            · subst hq; exact lt_of_not_le hc
            · exact hlt q hq

theorem sort_desc_length (l : List (String × ℚ)) :
    (sort_desc l).length = l.length :=
  (sort_desc_perm l).length_eq

theorem action_evs_length (pc : List Nat) (v : Nat) (sc : Rank → Nat) :
    ∀ (acts : List String) (rng : List Nat),
      (action_evs pc v sc acts rng).1.length = acts.length := by
  intro acts
  induction acts with
  | nil => intro rng; rfl
  | cons a rest ih =>
      intro rng
      simp only [action_evs, List.length_cons]
      rw [ih]

theorem action_evs_names (pc : List Nat) (v : Nat) (sc : Rank → Nat) :
    ∀ (acts : List String) (rng : List Nat),
      (action_evs pc v sc acts rng).1.map Prod.fst = acts := by
  intro acts
  induction acts with
  | nil => intro rng; rfl
  | cons a rest ih =>
      intro rng
      simp only [action_evs, List.map_cons]
      rw [ih]

theorem legal_actions_length (pc : List Nat) (ft sh : Bool) :
    2 ≤ (legal_actions pc ft sh).length := by
  rw [legal_actions]
  split <;> split <;> decide

theorem legal_actions_priority_order (pc : List Nat) (ft sh : Bool) :
    List.Sublist (legal_actions pc ft sh)
      ["Stand", "Hit", "Double Down", "Split"] := by
  rw [legal_actions]
  split <;> split <;> decide

/-- C7: `get_player_action` evaluates the legal actions in the fixed
priority order Stand, Hit, Double Down, Split (the action list is always a
sublist of that order and always contains at least Stand and Hit, so the
"exactly one legal action" case never arises in this program); the returned
best action is a maximal-EV entry of the evaluated list and, among entries
of maximal EV, the FIRST in priority order (Python's stable descending
sort); the runner-up is a maximal-EV entry of the rest, and the reported
gap equals best EV minus second-best EV. -/
theorem get_player_action_selects_best (pc : List Nat) (v : Nat)
    (sc : Rank → Nat) (ft sh : Bool) (rng : List Nat) :
    2 ≤ (action_evs pc v sc (legal_actions pc ft sh) rng).1.length ∧
    (action_evs pc v sc (legal_actions pc ft sh) rng).1.map Prod.fst =
      legal_actions pc ft sh ∧
    List.Sublist (legal_actions pc ft sh)
      ["Stand", "Hit", "Double Down", "Split"] ∧
    ∃ bp sp rest,
      sort_desc (action_evs pc v sc (legal_actions pc ft sh) rng).1 =
        bp :: sp :: rest ∧
      (get_player_action pc v sc ft sh rng).1 = bp.1 ∧
      (get_player_action pc v sc ft sh rng).2.1 = some sp.1 ∧
      (get_player_action pc v sc ft sh rng).2.2.1 = bp.2 - sp.2 ∧
      List.Perm (bp :: sp :: rest)
        (action_evs pc v sc (legal_actions pc ft sh) rng).1 ∧
      (∀ q ∈ (action_evs pc v sc (legal_actions pc ft sh) rng).1,
        q.2 ≤ bp.2) ∧
      (∃ l1 l2, (action_evs pc v sc (legal_actions pc ft sh) rng).1 =
        l1 ++ bp :: l2 ∧ ∀ q ∈ l1, q.2 < bp.2) ∧
      (∀ q ∈ sp :: rest, q.2 ≤ sp.2) := by
  have hplen : 2 ≤ (action_evs pc v sc (legal_actions pc ft sh) rng).1.length := by
    rw [action_evs_length]
    exact legal_actions_length pc ft sh
  refine ⟨hplen, action_evs_names pc v sc (legal_actions pc ft sh) rng,
    legal_actions_priority_order pc ft sh, ?_⟩
  have hslen : 2 ≤
      (sort_desc (action_evs pc v sc (legal_actions pc ft sh) rng).1).length := by
    rw [sort_desc_length]
    exact hplen
  cases hs : sort_desc (action_evs pc v sc (legal_actions pc ft sh) rng).1 with
  | nil => rw [hs] at hslen; simp at hslen
  | cons bp tail =>
      cases tail with
      | nil => rw [hs] at hslen; simp at hslen
      | cons sp rest =>
          have hperm : List.Perm (bp :: sp :: rest)
              (action_evs pc v sc (legal_actions pc ft sh) rng).1 :=
            hs ▸ sort_desc_perm _
          have hsorted := sort_desc_sorted
            (action_evs pc v sc (legal_actions pc ft sh) rng).1
          rw [hs] at hsorted
          rw [List.pairwise_cons] at hsorted
          obtain ⟨hbp_ge, hsorted2⟩ := hsorted
          have hsp_ge : ∀ q ∈ sp :: rest, q.2 ≤ sp.2 := by
            rw [List.pairwise_cons] at hsorted2
            intro q hq
            rcases List.mem_cons.mp hq with hq | hq
            · subst hq; exact le_refl _
            · exact hsorted2.1 q hq
          have hlen2 : (bp :: sp :: rest).length > 1 := by
            simp only [List.length_cons]
            omega
          refine ⟨bp, sp, rest, rfl, ?_, ?_, ?_, hperm, ?_, ?_, hsp_ge⟩
          · simp only [get_player_action, hs]
            rfl
          · simp only [get_player_action, hs]
            rw [if_pos hlen2]
            rfl
          · simp only [get_player_action, hs]
            rw [if_pos hlen2]
            rfl
          · intro q hq
            rcases List.mem_cons.mp (hperm.symm.mem_iff.mp hq) with hq' | hq'
            · subst hq'; exact le_refl _
            · exact hbp_ge q hq'
          · exact sort_desc_head_first_max _ bp (sp :: rest) hs

/-! ## C8: the dealer upcard is removed twice in Hit / Double Down trials -/

theorem play_out_loop_count_le (x : Nat) (fuel : Nat) :
    ∀ (cards deck rng : List Nat),
      ((play_out_loop fuel cards deck rng).1.2).count x ≤ deck.count x := by
  induction fuel with
  | zero => intro cards deck rng; exact Nat.le_refl _
  | succ fuel ih =>
      intro cards deck rng
      by_cases h : hand_value cards < 17 ∧ deck ≠ []
      · by_cases hb : hand_value (cards ++ [(choice deck rng).1]) > BLACKJACK
        · rw [show play_out_loop (fuel + 1) cards deck rng =
              ((cards ++ [(choice deck rng).1],
                deck.erase (choice deck rng).1), (choice deck rng).2) from by
            rw [play_out_loop, if_pos h, if_pos hb]]
          exact (List.erase_sublist _ _).count_le x
        · rw [show play_out_loop (fuel + 1) cards deck rng =
              play_out_loop fuel (cards ++ [(choice deck rng).1])
                (deck.erase (choice deck rng).1) (choice deck rng).2 from by
            rw [play_out_loop, if_pos h, if_neg hb]]
          exact le_trans (ih _ _ _) ((List.erase_sublist _ _).count_le x)
      · rw [show play_out_loop (fuel + 1) cards deck rng =
            ((cards, deck), rng) from by rw [play_out_loop, if_neg h]]

/-- C8: in every Hit and Double Down trial the dealer upcard's value is
removed from the trial's local pool twice: once by the action simulator
before the player's draws (`.erase v` applied to the pool
`remove_values (build_shoe_list sc) pc`, i.e. the trial pool with the
player's known cards removed), and once again inside
`simulate_dealer_hand_once`, which draws from `s.erase v` for whatever pool
`s` it receives — so the dealer's draw pool holds one fewer upcard-valued
card than the list passed to the dealer routine (an unconditional count
equation), and, since the player's interim draws only remove cards, at
least two fewer (truncated at zero) than the trial's starting pool. -/
theorem upcard_removed_twice_hit_dd (pc : List Nat) (v : Nat)
    (sc : Rank → Nat) (rng : List Nat) :
    (∀ (s g : List Nat), (simulate_dealer_hand_once v s g).1 =
        hand_value (dealer_loop (s.erase v).length [v] (s.erase v) g).1.1 ∧
      (s.erase v).count v = s.count v - 1) ∧
    (v ∈ remove_values (build_shoe_list sc) pc →
      ((remove_values (build_shoe_list sc) pc).erase v).count v =
        (remove_values (build_shoe_list sc) pc).count v - 1) ∧
    (hit_trial pc v sc rng =
      (let q := play_out_hand pc
        ((remove_values (build_shoe_list sc) pc).erase v) rng
       let d := simulate_dealer_hand_once v q.1.2 q.2
       (if hand_value q.1.1 > BLACKJACK then -1
        else if d.1 > BLACKJACK ∨ hand_value q.1.1 > d.1 then 1
        else if hand_value q.1.1 < d.1 then -1 else 0, d.2))) ∧
    ((((play_out_hand pc ((remove_values (build_shoe_list sc) pc).erase v)
        rng).1.2).erase v).count v ≤
      (remove_values (build_shoe_list sc) pc).count v - 2) ∧
    (double_down_trial pc v sc rng =
      (let s1 := (remove_values (build_shoe_list sc) pc).erase v
       let c := if s1 ≠ [] then choice s1 rng else (0, rng)
       let d := simulate_dealer_hand_once v (s1.erase c.1) c.2
       (if hand_value (pc ++ [c.1]) > BLACKJACK then -2
        else if d.1 > BLACKJACK ∨ hand_value (pc ++ [c.1]) > d.1 then 2
        else if hand_value (pc ++ [c.1]) < d.1 then -2 else 0, d.2))) ∧
    (((((remove_values (build_shoe_list sc) pc).erase v).erase
        (if ((remove_values (build_shoe_list sc) pc).erase v) ≠ []
         then choice ((remove_values (build_shoe_list sc) pc).erase v) rng
         else (0, rng)).1).erase v).count v ≤
      (remove_values (build_shoe_list sc) pc).count v - 2) := by
  refine ⟨?_, ?_, rfl, ?_, rfl, ?_⟩
  · intro s g
    exact ⟨rfl, List.count_erase_self v s⟩
  · intro hv
    exact List.count_erase_self v _
  · have h1 : ((remove_values (build_shoe_list sc) pc).erase v).count v =
        (remove_values (build_shoe_list sc) pc).count v - 1 :=
      List.count_erase_self v _
    have h2 : ((play_out_hand pc
        ((remove_values (build_shoe_list sc) pc).erase v) rng).1.2).count v ≤
        ((remove_values (build_shoe_list sc) pc).erase v).count v :=
      play_out_loop_count_le v _ pc _ rng
    have h3 := List.count_erase_self v
      ((play_out_hand pc ((remove_values (build_shoe_list sc) pc).erase v)
        rng).1.2)
    omega
  · have h1 : ((remove_values (build_shoe_list sc) pc).erase v).count v =
        (remove_values (build_shoe_list sc) pc).count v - 1 :=
      List.count_erase_self v _
    have h2 := (List.erase_sublist
      (if ((remove_values (build_shoe_list sc) pc).erase v) ≠ []
       then choice ((remove_values (build_shoe_list sc) pc).erase v) rng
       else (0, rng)).1
      ((remove_values (build_shoe_list sc) pc).erase v)).count_le v
    have h3 := List.count_erase_self v
      (((remove_values (build_shoe_list sc) pc).erase v).erase
        (if ((remove_values (build_shoe_list sc) pc).erase v) ≠ []
         then choice ((remove_values (build_shoe_list sc) pc).erase v) rng
         else (0, rng)).1)
    omega

/-! ## C10: the estimator's randomness comes only from the injected stream -/

theorem streamDet_const {α : Type} (a : α) :
    StreamDet (fun rng => (a, rng)) := by
  intro rng
  refine ⟨0, by simp, ?_⟩
  intro rng2 _
  simp

theorem streamDet_congr {α : Type} {f g : List Nat → α × List Nat}
    (h : ∀ rng, f rng = g rng) (hf : StreamDet f) : StreamDet g := by
  intro rng
  obtain ⟨k, hd, hk⟩ := hf rng
  refine ⟨k, by rw [← h rng]; exact hd, ?_⟩
  intro rng2 htake
  obtain ⟨h1, h2⟩ := hk rng2 htake
  rw [← h rng2, ← h rng]
  exact ⟨h1, h2⟩

theorem streamDet_choice (pool : List Nat) : StreamDet (choice pool) := by
  intro rng
  cases rng with
  | nil =>
      refine ⟨1, rfl, ?_⟩
      intro rng2 htake
      have h2 : rng2 = [] := by
        rcases List.take_eq_nil_iff.mp htake with h | h
        · omega
        · exact h
      subst h2
      exact ⟨rfl, rfl⟩
  | cons r rs =>
      refine ⟨1, rfl, ?_⟩
      intro rng2 htake
      cases rng2 with
      | nil => simp [List.take] at htake
      | cons a t =>
          have ha : a = r := by
            simp only [List.take, List.take_zero] at htake
            exact (List.cons.inj htake).1
          subst ha
          exact ⟨rfl, rfl⟩

theorem streamDet_bind {α β : Type} {f : List Nat → α × List Nat}
    {g : α → List Nat → β × List Nat}
    (hf : StreamDet f) (hg : ∀ rng, StreamDet (g (f rng).1)) :
    StreamDet (fun rng => g (f rng).1 (f rng).2) := by
  intro rng
  obtain ⟨k1, hd1, hk1⟩ := hf rng
  obtain ⟨k2, hd2, hk2⟩ := hg rng (f rng).2
  refine ⟨k1 + k2, ?_, ?_⟩
  · rw [hd2, hd1, List.drop_drop]
  · intro rng2 htake
    have htake1 : rng2.take k1 = rng.take k1 := by
      have h := congrArg (List.take k1) htake
      rwa [List.take_take, List.take_take,
        inf_eq_left.mpr (Nat.le_add_right k1 k2)] at h
    obtain ⟨hv1, hd1'⟩ := hk1 rng2 htake1
    have htake2 : (rng2.drop k1).take k2 = ((f rng).2).take k2 := by
      rw [hd1, List.take_drop, List.take_drop, htake]
    obtain ⟨hv2, hd2'⟩ := hk2 (rng2.drop k1) htake2
    constructor
    · show (g (f rng2).1 (f rng2).2).1 = (g (f rng).1 (f rng).2).1
      rw [hv1, hd1']
      exact hv2
    · show (g (f rng2).1 (f rng2).2).2 = rng2.drop (k1 + k2)
      rw [hv1, hd1', hd2', List.drop_drop]

theorem streamDet_dealer_loop (fuel : Nat) :
    ∀ (cards shoe : List Nat), StreamDet (dealer_loop fuel cards shoe) := by
  induction fuel with
  | zero =>
      intro cards shoe
      exact streamDet_congr (fun rng => rfl) (streamDet_const (cards, shoe))
  | succ fuel ih =>
      intro cards shoe
      by_cases h : hand_value cards < DEALER_STAND ∧ shoe ≠ []
      · refine streamDet_congr (f := fun rng =>
          (fun a rng' => dealer_loop fuel (cards ++ [a]) (shoe.erase a) rng')
            (choice shoe rng).1 (choice shoe rng).2) ?_ ?_
        · intro rng
          rw [dealer_loop, if_pos h]
        · exact streamDet_bind
            (g := fun a rng' =>
              dealer_loop fuel (cards ++ [a]) (shoe.erase a) rng')
            (streamDet_choice shoe) (fun rng => ih _ _)
      · refine streamDet_congr (f := fun rng => ((cards, shoe), rng)) ?_
          (streamDet_const (cards, shoe))
        intro rng
        rw [dealer_loop, if_neg h]

theorem streamDet_play_out_loop (fuel : Nat) :
    ∀ (cards deck : List Nat), StreamDet (play_out_loop fuel cards deck) := by
  induction fuel with
  | zero =>
      intro cards deck
      exact streamDet_congr (fun rng => rfl) (streamDet_const (cards, deck))
  | succ fuel ih =>
      intro cards deck
      by_cases h : hand_value cards < 17 ∧ deck ≠ []
      · refine streamDet_congr (f := fun rng =>
          (fun a rng' =>
            if hand_value (cards ++ [a]) > BLACKJACK then
              ((cards ++ [a], deck.erase a), rng')
            else play_out_loop fuel (cards ++ [a]) (deck.erase a) rng')
            (choice deck rng).1 (choice deck rng).2) ?_ ?_
        · intro rng
          rw [play_out_loop, if_pos h]
        · refine streamDet_bind
            (g := fun a rng' =>
              if hand_value (cards ++ [a]) > BLACKJACK then
                ((cards ++ [a], deck.erase a), rng')
              else play_out_loop fuel (cards ++ [a]) (deck.erase a) rng')
            (streamDet_choice deck) ?_
          intro rng
          by_cases hb : hand_value (cards ++ [(choice deck rng).1]) > BLACKJACK
          · refine streamDet_congr (f := fun rng' =>
              ((cards ++ [(choice deck rng).1],
                deck.erase (choice deck rng).1), rng')) ?_
              (streamDet_const _)
            intro rng'
            show _ = if _ > BLACKJACK then _ else _
            rw [if_pos hb]
          · refine streamDet_congr (f :=
              play_out_loop fuel (cards ++ [(choice deck rng).1])
                (deck.erase (choice deck rng).1)) ?_ (ih _ _)
            intro rng'
            show _ = if _ > BLACKJACK then _ else _
            rw [if_neg hb]
      · refine streamDet_congr (f := fun rng => ((cards, deck), rng)) ?_
          (streamDet_const (cards, deck))
        intro rng
        rw [play_out_loop, if_neg h]

theorem streamDet_simulate_dealer_hand_once (v : Nat) (shoe_list : List Nat) :
    StreamDet (simulate_dealer_hand_once v shoe_list) := by
  refine streamDet_congr (f := fun rng =>
    (fun (a : List Nat × List Nat) (rng' : List Nat) => (hand_value a.1, rng'))
      (dealer_loop (shoe_list.erase v).length [v] (shoe_list.erase v) rng).1
      (dealer_loop (shoe_list.erase v).length [v] (shoe_list.erase v) rng).2)
    (fun rng => rfl) ?_
  exact streamDet_bind
    (g := fun (a : List Nat × List Nat) (rng' : List Nat) =>
      (hand_value a.1, rng'))
    (streamDet_dealer_loop _ _ _) (fun rng => streamDet_const _)

theorem streamDet_play_out_hand (cards deck : List Nat) :
    StreamDet (play_out_hand cards deck) :=
  streamDet_congr (fun rng => rfl)
    (streamDet_play_out_loop deck.length cards deck)

theorem streamDet_simulate_dealer_hands_aux (v : Nat) (shoe_list : List Nat) :
    ∀ n, StreamDet (simulate_dealer_hands_aux v shoe_list n) := by
  intro n
  induction n with
  | zero => exact streamDet_congr (fun rng => rfl) (streamDet_const [])
  | succ n ih =>
      refine streamDet_congr (f := fun rng =>
        (fun (t : Nat) rng' =>
          (fun (ts : List Nat) (rng'' : List Nat) => (t :: ts, rng''))
            (simulate_dealer_hands_aux v shoe_list n rng').1
            (simulate_dealer_hands_aux v shoe_list n rng').2)
          (simulate_dealer_hand_once v shoe_list rng).1
          (simulate_dealer_hand_once v shoe_list rng).2)
        (fun rng => rfl) ?_
      refine streamDet_bind
        (g := fun (t : Nat) rng' =>
          (fun (ts : List Nat) (rng'' : List Nat) => (t :: ts, rng''))
            (simulate_dealer_hands_aux v shoe_list n rng').1
            (simulate_dealer_hands_aux v shoe_list n rng').2)
        (streamDet_simulate_dealer_hand_once v shoe_list) ?_
      intro rng
      exact streamDet_bind
        (g := fun (ts : List Nat) (rng'' : List Nat) =>
          ((simulate_dealer_hand_once v shoe_list rng).1 :: ts, rng''))
        ih (fun rng' => streamDet_const _)

theorem streamDet_run_trials (trial : List Nat → Int × List Nat)
    (htrial : StreamDet trial) : ∀ n, StreamDet (run_trials trial n) := by
  intro n
  induction n with
  | zero => exact streamDet_congr (fun rng => rfl) (streamDet_const 0)
  | succ n ih =>
      refine streamDet_congr (f := fun rng =>
        (fun (a : Int) rng' =>
          (fun (b : Int) (rng'' : List Nat) => (a + b, rng''))
            (run_trials trial n rng').1 (run_trials trial n rng').2)
          (trial rng).1 (trial rng).2)
        (fun rng => rfl) ?_
      refine streamDet_bind
        (g := fun (a : Int) rng' =>
          (fun (b : Int) (rng'' : List Nat) => (a + b, rng''))
            (run_trials trial n rng').1 (run_trials trial n rng').2)
        htrial ?_
      intro rng
      exact streamDet_bind
        (g := fun (b : Int) (rng'' : List Nat) => ((trial rng).1 + b, rng''))
        ih (fun rng' => streamDet_const _)

theorem streamDet_mc_chunk_loop (chunk_fn : List Nat → Int × List Nat)
    (den : Nat) (hchunk : StreamDet chunk_fn) :
    ∀ (js : List Nat) (ev : Int) (cps : List ℚ),
      StreamDet (mc_chunk_loop chunk_fn den js ev cps) := by
  intro js
  induction js with
  | nil =>
      intro ev cps
      exact streamDet_congr (fun rng => rfl) (streamDet_const (ev, cps))
  | cons i rest ih =>
      intro ev cps
      refine streamDet_congr (f := fun rng =>
        (fun (a : Int) rng' => mc_chunk_loop chunk_fn den rest (ev + a)
          (cps ++ [((ev + a : Int) : ℚ) / (((i + 1) * den : Nat) : ℚ)]) rng')
          (chunk_fn rng).1 (chunk_fn rng).2)
        (fun rng => rfl) ?_
      exact streamDet_bind
        (g := fun (a : Int) rng' => mc_chunk_loop chunk_fn den rest (ev + a)
          (cps ++ [((ev + a : Int) : ℚ) / (((i + 1) * den : Nat) : ℚ)]) rng')
        hchunk (fun rng => ih _ _)

theorem streamDet_stand_chunk (pt : Nat) (soft : Bool) (v : Nat)
    (sc : Rank → Nat) (chunk : Nat) :
    StreamDet (stand_chunk pt soft v sc chunk) := by
  refine streamDet_congr (f := fun rng =>
    (fun (ts : List Nat) (rng' : List Nat) =>
      (process_results_for_stand_like pt ts soft, rng'))
      (simulate_dealer_hands v sc chunk rng).1
      (simulate_dealer_hands v sc chunk rng).2)
    (fun rng => rfl) ?_
  refine streamDet_bind
    (g := fun (ts : List Nat) (rng' : List Nat) =>
      (process_results_for_stand_like pt ts soft, rng'))
    ?_ (fun rng => streamDet_const _)
  exact streamDet_congr (fun rng => rfl)
    (streamDet_simulate_dealer_hands_aux v (build_shoe_list sc) chunk)

theorem streamDet_hit_trial (pc : List Nat) (v : Nat) (sc : Rank → Nat) :
    StreamDet (hit_trial pc v sc) := by
  refine streamDet_congr (f := fun rng =>
    (fun (a : List Nat × List Nat) (rng1 : List Nat) =>
      (fun (dt : Nat) (rng2 : List Nat) =>
        ((if hand_value a.1 > BLACKJACK then (-1 : Int)
          else if dt > BLACKJACK ∨ hand_value a.1 > dt then 1
          else if hand_value a.1 < dt then -1 else 0), rng2))
        (simulate_dealer_hand_once v a.2 rng1).1
        (simulate_dealer_hand_once v a.2 rng1).2)
      (play_out_hand pc ((remove_values (build_shoe_list sc) pc).erase v)
        rng).1
      (play_out_hand pc ((remove_values (build_shoe_list sc) pc).erase v)
        rng).2)
    (fun rng => rfl) ?_
  refine streamDet_bind
    (g := fun (a : List Nat × List Nat) (rng1 : List Nat) =>
      (fun (dt : Nat) (rng2 : List Nat) =>
        ((if hand_value a.1 > BLACKJACK then (-1 : Int)
          else if dt > BLACKJACK ∨ hand_value a.1 > dt then 1
          else if hand_value a.1 < dt then -1 else 0), rng2))
        (simulate_dealer_hand_once v a.2 rng1).1
        (simulate_dealer_hand_once v a.2 rng1).2)
    (streamDet_play_out_hand pc _) ?_
  intro rng
  exact streamDet_bind
    (g := fun (dt : Nat) (rng2 : List Nat) =>
      ((if hand_value (play_out_hand pc
            ((remove_values (build_shoe_list sc) pc).erase v) rng).1.1 >
            BLACKJACK then (-1 : Int)
        else if dt > BLACKJACK ∨ hand_value (play_out_hand pc
            ((remove_values (build_shoe_list sc) pc).erase v) rng).1.1 > dt
          then 1
        else if hand_value (play_out_hand pc
            ((remove_values (build_shoe_list sc) pc).erase v) rng).1.1 < dt
          then -1 else 0), rng2))
    (streamDet_simulate_dealer_hand_once v _) (fun rng' => streamDet_const _)

theorem streamDet_double_down_trial (pc : List Nat) (v : Nat)
    (sc : Rank → Nat) : StreamDet (double_down_trial pc v sc) := by
  refine streamDet_congr (f := fun rng =>
    (fun (c : Nat) (rng1 : List Nat) =>
      (fun (dt : Nat) (rng2 : List Nat) =>
        ((if hand_value (pc ++ [c]) > BLACKJACK then (-2 : Int)
          else if dt > BLACKJACK ∨ hand_value (pc ++ [c]) > dt then 2
          else if hand_value (pc ++ [c]) < dt then -2 else 0), rng2))
        (simulate_dealer_hand_once v
          (((remove_values (build_shoe_list sc) pc).erase v).erase c) rng1).1
        (simulate_dealer_hand_once v
          (((remove_values (build_shoe_list sc) pc).erase v).erase c) rng1).2)
      (if (remove_values (build_shoe_list sc) pc).erase v ≠ []
       then choice ((remove_values (build_shoe_list sc) pc).erase v) rng
       else (0, rng)).1
      (if (remove_values (build_shoe_list sc) pc).erase v ≠ []
       then choice ((remove_values (build_shoe_list sc) pc).erase v) rng
       else (0, rng)).2)
    (fun rng => rfl) ?_
  refine streamDet_bind
    (g := fun (c : Nat) (rng1 : List Nat) =>
      (fun (dt : Nat) (rng2 : List Nat) =>
        ((if hand_value (pc ++ [c]) > BLACKJACK then (-2 : Int)
          else if dt > BLACKJACK ∨ hand_value (pc ++ [c]) > dt then 2
          else if hand_value (pc ++ [c]) < dt then -2 else 0), rng2))
        (simulate_dealer_hand_once v
          (((remove_values (build_shoe_list sc) pc).erase v).erase c) rng1).1
        (simulate_dealer_hand_once v
          (((remove_values (build_shoe_list sc) pc).erase v).erase c) rng1).2)
    ?_ ?_
  · by_cases he : (remove_values (build_shoe_list sc) pc).erase v ≠ []
    · refine streamDet_congr
        (f := choice ((remove_values (build_shoe_list sc) pc).erase v)) ?_
        (streamDet_choice _)
      intro rng
      rw [if_pos he]
    · refine streamDet_congr (f := fun rng => (0, rng)) ?_
        (streamDet_const 0)
      intro rng
      rw [if_neg he]
  · intro rng
    exact streamDet_bind
      (g := fun (dt : Nat) (rng2 : List Nat) =>
        ((if hand_value (pc ++ [(if (remove_values (build_shoe_list sc)
              pc).erase v ≠ []
            then choice ((remove_values (build_shoe_list sc) pc).erase v) rng
            else (0, rng)).1]) > BLACKJACK then (-2 : Int)
          else if dt > BLACKJACK ∨ hand_value (pc ++
              [(if (remove_values (build_shoe_list sc) pc).erase v ≠ []
                then choice ((remove_values (build_shoe_list sc) pc).erase v)
                  rng
                else (0, rng)).1]) > dt then 2
          else if hand_value (pc ++
              [(if (remove_values (build_shoe_list sc) pc).erase v ≠ []
                then choice ((remove_values (build_shoe_list sc) pc).erase v)
                  rng
                else (0, rng)).1]) < dt then -2 else 0), rng2))
      (streamDet_simulate_dealer_hand_once v _)
      (fun rng' => streamDet_const _)

theorem streamDet_split_subhand (split_v v : Nat) (p : List Nat) :
    StreamDet (split_subhand split_v v p) := by
  refine streamDet_congr (f := fun rng =>
    (fun (a : Nat) (r1 : List Nat) =>
      (fun (q : List Nat × List Nat) (r2 : List Nat) =>
        (fun (d : Nat) (r3 : List Nat) =>
          ((compare_final_totals (hand_value q.1) d, q.2), r3))
          (simulate_dealer_hand_once v q.2 r2).1
          (simulate_dealer_hand_once v q.2 r2).2)
        (play_out_hand [split_v, a] (p.erase a) r1).1
        (play_out_hand [split_v, a] (p.erase a) r1).2)
      (choice p rng).1 (choice p rng).2)
    (fun rng => rfl) ?_
  refine streamDet_bind
    (g := fun (a : Nat) (r1 : List Nat) =>
      (fun (q : List Nat × List Nat) (r2 : List Nat) =>
        (fun (d : Nat) (r3 : List Nat) =>
          ((compare_final_totals (hand_value q.1) d, q.2), r3))
          (simulate_dealer_hand_once v q.2 r2).1
          (simulate_dealer_hand_once v q.2 r2).2)
        (play_out_hand [split_v, a] (p.erase a) r1).1
        (play_out_hand [split_v, a] (p.erase a) r1).2)
    (streamDet_choice p) ?_
  intro rng
  refine streamDet_bind
    (g := fun (q : List Nat × List Nat) (r2 : List Nat) =>
      (fun (d : Nat) (r3 : List Nat) =>
        ((compare_final_totals (hand_value q.1) d, q.2), r3))
        (simulate_dealer_hand_once v q.2 r2).1
        (simulate_dealer_hand_once v q.2 r2).2)
    (streamDet_play_out_hand _ _) ?_
  intro r1
  exact streamDet_bind
    (g := fun (d : Nat) (r3 : List Nat) =>
      ((compare_final_totals
          (hand_value (play_out_hand [split_v, (choice p rng).1]
            (p.erase (choice p rng).1) r1).1.1) d,
        (play_out_hand [split_v, (choice p rng).1]
          (p.erase (choice p rng).1) r1).1.2), r3))
    (streamDet_simulate_dealer_hand_once v _) (fun r2 => streamDet_const _)

theorem streamDet_split_trial (split_v v : Nat) (sc : Rank → Nat) :
    StreamDet (split_trial split_v v sc) := by
  by_cases hc : (build_shoe_list sc).count split_v ≥ 2
  · refine streamDet_congr (f := fun rng =>
      (fun (x1 : Int × List Nat) (r1 : List Nat) =>
        (fun (x2 : Int × List Nat) (r2 : List Nat) => (x1.1 + x2.1, r2))
          (split_subhand split_v v x1.2 r1).1
          (split_subhand split_v v x1.2 r1).2)
        (split_subhand split_v v
          ((((build_shoe_list sc).erase split_v).erase split_v).erase v)
          rng).1
        (split_subhand split_v v
          ((((build_shoe_list sc).erase split_v).erase split_v).erase v)
          rng).2) ?_ ?_
    · intro rng
      show _ = split_trial split_v v sc rng
      simp only [split_trial, split_subhand]
      rw [if_pos hc]
    · refine streamDet_bind
        (g := fun (x1 : Int × List Nat) (r1 : List Nat) =>
          (fun (x2 : Int × List Nat) (r2 : List Nat) => (x1.1 + x2.1, r2))
            (split_subhand split_v v x1.2 r1).1
            (split_subhand split_v v x1.2 r1).2)
        (streamDet_split_subhand split_v v _) ?_
      intro rng
      exact streamDet_bind
        (g := fun (x2 : Int × List Nat) (r2 : List Nat) =>
          ((split_subhand split_v v
            ((((build_shoe_list sc).erase split_v).erase split_v).erase v)
            rng).1.1 + x2.1, r2))
        (streamDet_split_subhand split_v v _) (fun r1 => streamDet_const _)
  · refine streamDet_congr (f := fun rng => ((0 : Int), rng)) ?_
      (streamDet_const 0)
    intro rng
    show _ = split_trial split_v v sc rng
    simp only [split_trial]
    rw [if_neg hc]

theorem streamDet_map {α β : Type} (h : α → β)
    {f : List Nat → α × List Nat} (hf : StreamDet f) :
    StreamDet (fun rng => (h (f rng).1, (f rng).2)) :=
  streamDet_bind (g := fun a (rng' : List Nat) => (h a, rng')) hf
    (fun rng => streamDet_const _)

/-- C10: the Monte-Carlo EV estimator is a deterministic function of the
injected random stream — it consumes some prefix of the stream, its result
(EV and convergence trace) depends only on that consumed prefix, and it
returns exactly the unconsumed suffix; in particular two runs fed the same
seeded stream and the same shoe snapshot return the identical EV and the
identical convergence trace. -/
theorem monte_carlo_ev_stream_deterministic (pc : List Nat) (v : Nat)
    (sc : Rank → Nat) (action : String) (N : Nat) :
    StreamDet (monte_carlo_ev pc v sc action N) ∧
    (∀ rng1 rng2, rng1 = rng2 →
      monte_carlo_ev pc v sc action N rng1 =
        monte_carlo_ev pc v sc action N rng2) := by
  refine ⟨?_, fun rng1 rng2 h => by rw [h]⟩
  by_cases hS : action = "Stand"
  · subst hS
    refine streamDet_congr (f := fun rng =>
      (fun (p : Int × List ℚ) (rng' : List Nat) =>
        ((((p.1 : Int) : ℚ) / ((N : Nat) : ℚ) * RTP, p.2), rng'))
        (mc_chunk_loop (stand_chunk (hand_value pc) (is_soft_hand pc) v sc
          (N / 10)) (N / 10) (List.range 10) 0 [] rng).1
        (mc_chunk_loop (stand_chunk (hand_value pc) (is_soft_hand pc) v sc
          (N / 10)) (N / 10) (List.range 10) 0 [] rng).2) ?_ ?_
    · intro rng
      simp only [monte_carlo_ev, ite_true, if_true]
    · exact streamDet_map
        (fun p : Int × List ℚ =>
          (((p.1 : Int) : ℚ) / ((N : Nat) : ℚ) * RTP, p.2))
        (streamDet_mc_chunk_loop
          (stand_chunk (hand_value pc) (is_soft_hand pc) v sc (N / 10))
          (N / 10) (streamDet_stand_chunk _ _ _ _ _) (List.range 10) 0 [])
  · by_cases hH : action = "Hit"
    · subst hH
      refine streamDet_congr (f := fun rng =>
        (fun (p : Int × List ℚ) (rng' : List Nat) =>
          ((((p.1 : Int) : ℚ) / ((N : Nat) : ℚ) * RTP, p.2), rng'))
          (mc_chunk_loop (fun g => run_trials (hit_trial pc v sc) (N / 10) g)
            (N / 10) (List.range 10) 0 [] rng).1
          (mc_chunk_loop (fun g => run_trials (hit_trial pc v sc) (N / 10) g)
            (N / 10) (List.range 10) 0 [] rng).2) ?_ ?_
      · intro rng
        simp only [monte_carlo_ev]
        rw [if_neg (by decide : ¬("Hit" : String) = "Stand")]
        simp only [ite_true, if_true]
      · exact streamDet_map
          (fun p : Int × List ℚ =>
            (((p.1 : Int) : ℚ) / ((N : Nat) : ℚ) * RTP, p.2))
          (streamDet_mc_chunk_loop
            (fun g => run_trials (hit_trial pc v sc) (N / 10) g) (N / 10)
            (streamDet_run_trials _ (streamDet_hit_trial pc v sc) _)
            (List.range 10) 0 [])
    · by_cases hD : action = "Double Down"
      · subst hD
        refine streamDet_congr (f := fun rng =>
          (fun (p : Int × List ℚ) (rng' : List Nat) =>
            ((((p.1 : Int) : ℚ) / ((N : Nat) : ℚ) * RTP, p.2), rng'))
            (mc_chunk_loop
              (fun g => run_trials (double_down_trial pc v sc) (N / 10) g)
              (N / 10) (List.range 10) 0 [] rng).1
            (mc_chunk_loop
              (fun g => run_trials (double_down_trial pc v sc) (N / 10) g)
              (N / 10) (List.range 10) 0 [] rng).2) ?_ ?_
        · intro rng
          simp only [monte_carlo_ev]
          rw [if_neg (by decide : ¬("Double Down" : String) = "Stand"),
              if_neg (by decide : ¬("Double Down" : String) = "Hit")]
          simp only [ite_true, if_true]
        · exact streamDet_map
            (fun p : Int × List ℚ =>
              (((p.1 : Int) : ℚ) / ((N : Nat) : ℚ) * RTP, p.2))
            (streamDet_mc_chunk_loop
              (fun g => run_trials (double_down_trial pc v sc) (N / 10) g)
              (N / 10)
              (streamDet_run_trials _ (streamDet_double_down_trial pc v sc) _)
              (List.range 10) 0 [])
      · by_cases hX : action = "Split"
        · subst hX
          refine streamDet_congr (f := fun rng =>
            (fun (s : Int) (rng' : List Nat) =>
              ((((s : Int) : ℚ) / ((10 * (N / 10) : Nat) : ℚ) /
                  ((N : Nat) : ℚ) * RTP, ([] : List ℚ)), rng'))
              (run_trials (fun g => run_trials
                (split_trial (pc.headD 0) v sc) (N / 10) g) 10 rng).1
              (run_trials (fun g => run_trials
                (split_trial (pc.headD 0) v sc) (N / 10) g) 10 rng).2) ?_ ?_
          · intro rng
            simp only [monte_carlo_ev]
            rw [if_neg (by decide : ¬("Split" : String) = "Stand"),
                if_neg (by decide : ¬("Split" : String) = "Hit"),
                if_neg (by decide : ¬("Split" : String) = "Double Down")]
            simp only [ite_true, if_true]
          · exact streamDet_map
              (fun s : Int =>
                (((s : Int) : ℚ) / ((10 * (N / 10) : Nat) : ℚ) /
                  ((N : Nat) : ℚ) * RTP, ([] : List ℚ)))
              (streamDet_run_trials
                (fun g => run_trials (split_trial (pc.headD 0) v sc)
                  (N / 10) g)
                (streamDet_run_trials _
                  (streamDet_split_trial (pc.headD 0) v sc) _) 10)
        · refine streamDet_congr (f := fun rng =>
            (((0 / ((N : Nat) : ℚ) * RTP, ([] : List ℚ))), rng)) ?_
            (streamDet_const _)
          intro rng
          simp only [monte_carlo_ev]
          rw [if_neg hS, if_neg hH, if_neg hD, if_neg hX]
